import Mathlib

/-!
Verification of the EE-514 final project (quantum error-detection benchmarks).

The repository builds Qiskit circuits for two small error-detecting codes
(8 data qubits with a 4-qubit ancilla register in `(8,6,2)_DD.py`, and
6 data qubits in `(6,4,2)_sim_dd.py` / `six_four_two_v2.py`), attaches
Pauli-mixture noise models, simulates them, and reduces the counts to a
postselection rate.

The embedding mirrors the source:

* a circuit is an ordered list of `Op`s (the Qiskit calls append operations,
  so each Python circuit-builder function becomes a `List Op → List Op`);
* noise models are the literal data handed to `NoiseModel` /
  `add_all_qubit_quantum_error`: a list of attachments (quantum error plus
  gate-name list);
* the noiseless unitary/measurement semantics of the circuits is exact, with
  amplitudes in the ring ℤ[i] of Gaussian integers.  Gates are applied
  unnormalised: the Hadamard is the integer matrix [[1,1],[1,−1]], so every
  `h` multiplies the true (normalised) amplitudes by √2, and a probability is
  a squared amplitude norm divided by 2^(number of `h` operations executed).
  All other gates used by the repository (X, Y, Z, CNOT) are Gaussian-integer
  matrices as they stand.
* states are stored as binary trees: a depth-n tree holds the 2^n amplitudes
  of an n-qubit register, the root splitting on the highest qubit index
  (left subtree = that qubit is 0).  The extra constructor `QVec.zero`
  denotes an all-zero subtree of whatever depth its position requires, so
  sparse states stay small.  Because one vector has many tree
  representations, statements about states compare them through `dense`
  (the full amplitude list) or via scalar summaries (`normSqT`), except
  where representation-level equality is itself the proved fact.
* `measure q b` is interpreted in the measurement branch where bit `b` reads
  a prescribed Boolean (a projection); running a circuit under the all-zero
  assignment `oFalse` computes the unnormalised weight of the outcome
  bitstring "00…", i.e. the postselection numerator.  `reset` in the sources
  only ever occurs immediately after a measurement of the same qubit, where
  that qubit is classical; on such states the deterministic map used here
  (add the q = 1 slice onto the q = 0 slice, then zero it) agrees exactly
  with the reset channel.
-/

/-- Amplitudes: Gaussian integers re + im·i. -/
structure Amp where
  re : ℤ
  im : ℤ
deriving DecidableEq

def Amp.add (u v : Amp) : Amp := ⟨u.re + v.re, u.im + v.im⟩
def Amp.neg (u : Amp) : Amp := ⟨-u.re, -u.im⟩
/-- Multiplication by the imaginary unit i. -/
def Amp.mulI (u : Amp) : Amp := ⟨-u.im, u.re⟩
/-- Multiplication by −i. -/
def Amp.mulNegI (u : Amp) : Amp := ⟨u.im, -u.re⟩
def Amp.mul (u v : Amp) : Amp :=
  ⟨u.re * v.re - u.im * v.im, u.re * v.im + u.im * v.re⟩
def Amp.zero : Amp := ⟨0, 0⟩
def Amp.one : Amp := ⟨1, 0⟩
/-- |u|² = re² + im². -/
def Amp.normSq (u : Amp) : ℤ := u.re * u.re + u.im * u.im

/-- The operation vocabulary of the circuits (spec §3): single-qubit gates
H, X, Y, Z; CNOT; measurement of a qubit into a classical bit; reset;
barrier.  Qubits are indices into the flattened register (data register
first, then the ancilla register); bits index the classical register. -/
inductive Op where
  | h (q : Nat)
  | x (q : Nat)
  | y (q : Nat)
  | z (q : Nat)
  | cx (c t : Nat)
  | measure (q b : Nat)
  | reset (q : Nat)
  | barrier
deriving DecidableEq

/-- State vectors as binary trees: a depth-n tree holds 2^n amplitudes, the
root splitting on qubit n−1 (left subtree = that qubit is 0).  `zero` is an
all-zero subtree of whatever depth its position requires. -/
inductive QVec where
  | zero
  | leaf (z : Amp)
  | node (l r : QVec)
deriving DecidableEq

/-- Pointwise sum of two trees of the same depth. -/
def addT : QVec → QVec → QVec
  | QVec.zero, w => w
  | v, QVec.zero => v
  | QVec.leaf a, QVec.leaf b => QVec.leaf (a.add b)
  | QVec.node l0 l1, QVec.node r0 r1 => QVec.node (addT l0 r0) (addT l1 r1)
  | v, _ => v

/-- Pointwise negation. -/
def negT : QVec → QVec
  | QVec.zero => QVec.zero
  | QVec.leaf z => QVec.leaf z.neg
  | QVec.node l r => QVec.node (negT l) (negT r)

/-- Pointwise multiplication by i. -/
def mulIT : QVec → QVec
  | QVec.zero => QVec.zero
  | QVec.leaf z => QVec.leaf z.mulI
  | QVec.node l r => QVec.node (mulIT l) (mulIT r)

/-- Pointwise multiplication by −i. -/
def mulNegIT : QVec → QVec
  | QVec.zero => QVec.zero
  | QVec.leaf z => QVec.leaf z.mulNegI
  | QVec.node l r => QVec.node (mulNegIT l) (mulNegIT r)

/-- Scalar multiple of a tree. -/
def smulT (s : Amp) : QVec → QVec
  | QVec.zero => QVec.zero
  | QVec.leaf z => QVec.leaf (s.mul z)
  | QVec.node l r => QVec.node (smulT s l) (smulT s r)

/-- Σ |amplitude|² over the tree. -/
def normSqT : QVec → ℤ
  | QVec.zero => 0
  | QVec.leaf z => z.normSq
  | QVec.node l r => normSqT l + normSqT r

/-- Left child of a depth-(m+1) tree (the qubit-m = 0 slice). -/
def childL : QVec → QVec
  | QVec.node l _ => l
  | _ => QVec.zero

/-- Right child of a depth-(m+1) tree (the qubit-m = 1 slice). -/
def childR : QVec → QVec
  | QVec.node _ r => r
  | _ => QVec.zero

/-- The all-zero basis state |0…0⟩ on n qubits. -/
def baseT : Nat → QVec
  | 0 => QVec.leaf Amp.one
  | n + 1 => QVec.node (baseT n) QVec.zero

/-- The all-ones basis state |1…1⟩ on n qubits. -/
def lastT : Nat → QVec
  | 0 => QVec.leaf Amp.one
  | n + 1 => QVec.node QVec.zero (lastT n)

/-- Unnormalised Hadamard [[1,1],[1,−1]] on qubit q, in a depth-n tree. -/
def applyH (q : Nat) : Nat → QVec → QVec
  | _, QVec.zero => QVec.zero
  | _, QVec.leaf z => QVec.leaf z
  | n, QVec.node l r =>
    if n = q + 1 then QVec.node (addT l r) (addT l (negT r))
    else QVec.node (applyH q (n - 1) l) (applyH q (n - 1) r)

/-- Pauli X on qubit q. -/
def applyX (q : Nat) : Nat → QVec → QVec
  | _, QVec.zero => QVec.zero
  | _, QVec.leaf z => QVec.leaf z
  | n, QVec.node l r =>
    if n = q + 1 then QVec.node r l
    else QVec.node (applyX q (n - 1) l) (applyX q (n - 1) r)

/-- Pauli Y on qubit q: Y|0⟩ = i|1⟩, Y|1⟩ = −i|0⟩. -/
def applyY (q : Nat) : Nat → QVec → QVec
  | _, QVec.zero => QVec.zero
  | _, QVec.leaf z => QVec.leaf z
  | n, QVec.node l r =>
    if n = q + 1 then QVec.node (mulNegIT r) (mulIT l)
    else QVec.node (applyY q (n - 1) l) (applyY q (n - 1) r)

/-- Pauli Z on qubit q. -/
def applyZ (q : Nat) : Nat → QVec → QVec
  | _, QVec.zero => QVec.zero
  | _, QVec.leaf z => QVec.leaf z
  | n, QVec.node l r =>
    if n = q + 1 then QVec.node l (negT r)
    else QVec.node (applyZ q (n - 1) l) (applyZ q (n - 1) r)

/-- Swap the (control = 1) slices of two sibling depth-m subtrees; helper for
a CNOT whose target splits above its control. -/
def condSwap (c : Nat) : Nat → QVec → QVec → QVec × QVec
  | _, QVec.zero, QVec.zero => (QVec.zero, QVec.zero)
  | 0, v, w => (v, w)
  | m + 1, l, r =>
    if m = c then
      (QVec.node (childL l) (childR r), QVec.node (childL r) (childR l))
    else
      let p0 := condSwap c m (childL l) (childL r)
      let p1 := condSwap c m (childR l) (childR r)
      (QVec.node p0.1 p1.1, QVec.node p0.2 p1.2)

/-- CNOT with control c and target t, in a depth-n tree. -/
def applyCX (c t : Nat) : Nat → QVec → QVec
  | _, QVec.zero => QVec.zero
  | _, QVec.leaf z => QVec.leaf z
  | n, QVec.node l r =>
    if n = c + 1 then QVec.node l (applyX t (n - 1) r)
    else if n = t + 1 then
      let p := condSwap c (n - 1) l r
      QVec.node p.1 p.2
    else QVec.node (applyCX c t (n - 1) l) (applyCX c t (n - 1) r)

/-- Projection of qubit q onto the outcome bit b (the other branch's
amplitudes are zeroed): the measurement branch selected by an outcome
assignment. -/
def applyProj (q : Nat) (b : Bool) : Nat → QVec → QVec
  | _, QVec.zero => QVec.zero
  | _, QVec.leaf z => QVec.leaf z
  | n, QVec.node l r =>
    if n = q + 1 then (if b then QVec.node QVec.zero r else QVec.node l QVec.zero)
    else QVec.node (applyProj q b (n - 1) l) (applyProj q b (n - 1) r)

/-- Reset of qubit q to |0⟩.  In every source circuit `reset` immediately
follows a measurement of the same qubit, so the qubit is classical there and
this deterministic map (add the q = 1 slice onto the q = 0 slice, then zero
it) is exactly the reset channel. -/
def applyReset (q : Nat) : Nat → QVec → QVec
  | _, QVec.zero => QVec.zero
  | _, QVec.leaf z => QVec.leaf z
  | n, QVec.node l r =>
    if n = q + 1 then QVec.node (addT l r) QVec.zero
    else QVec.node (applyReset q (n - 1) l) (applyReset q (n - 1) r)

/-- One operation of the circuit, under the outcome assignment o
(bit index ↦ measured Boolean). -/
def applyOp (n : Nat) (o : Nat → Bool) (v : QVec) : Op → QVec
  | Op.h q => applyH q n v
  | Op.x q => applyX q n v
  | Op.y q => applyY q n v
  | Op.z q => applyZ q n v
  | Op.cx c t => applyCX c t n v
  | Op.measure q b => applyProj q (o b) n v
  | Op.reset q => applyReset q n v
  | Op.barrier => v

/-- Run a circuit (in order) from a given state. -/
def evalOps (n : Nat) (o : Nat → Bool) (ops : List Op) (v : QVec) : QVec :=
  ops.foldl (applyOp n o) v

/-- The all-zero outcome assignment ("00"). -/
def oFalse : Nat → Bool := fun _ => false

/-- The dense amplitude list of a depth-n tree, in basis order
|0…00⟩, |0…01⟩, …  Two trees represent the same state exactly when their
dense lists agree. -/
def dense : Nat → QVec → List Amp
  | 0, QVec.leaf z => [z]
  | 0, _ => [Amp.zero]
  | n + 1, QVec.node l r => dense n l ++ dense n r
  | n + 1, QVec.zero => List.replicate (2 ^ (n + 1)) Amp.zero
  | _ + 1, QVec.leaf z => [z]

/-- Number of `h` operations in a circuit (each contributes a factor √2 to
the unnormalised amplitudes). -/
def hcount (ops : List Op) : Nat :=
  ops.countP fun op => match op with | Op.h _ => true | _ => false

/-- Probability that every measured bit of a circuit run from |0…0⟩ reads 0:
the squared norm of the all-zero measurement branch divided by 2^(number of
`h` operations). -/
def acceptProb (n : Nat) (ops : List Op) : ℚ :=
  ((normSqT (evalOps n oFalse ops (baseT n)) : ℚ)) / 2 ^ hcount ops

/-- One outcome term of a Qiskit `pauli_error`: a Pauli label with its
probability. -/
structure PauliTerm where
  label : String
  prob : ℚ
deriving DecidableEq

/-- A stochastic Pauli-mixture error channel (Qiskit `PauliError`): the ordered
list of (label, probability) outcome terms it was built from. -/
structure QuantumErrorE where
  terms : List PauliTerm
deriving DecidableEq

/-- Qiskit's `pauli_error` constructor. -/
def pauli_error (l : List (String × ℚ)) : QuantumErrorE :=
  ⟨l.map fun e => ⟨e.1, e.2⟩⟩

/-- Tensor product of two Pauli errors (Qiskit `PauliError.tensor`): every
label concatenation, with product probabilities. -/
def tensorE (e1 e2 : QuantumErrorE) : QuantumErrorE :=
  ⟨(e1.terms.map fun t1 =>
      e2.terms.map fun t2 => (⟨t1.label ++ t2.label, t1.prob * t2.prob⟩ : PauliTerm)).flatten⟩

/-- One `add_all_qubit_quantum_error(error, gates)` registration. -/
structure Attachment where
  error : QuantumErrorE
  gates : List String
deriving DecidableEq

/-- A Qiskit `NoiseModel`: the ordered list of channel registrations. -/
structure NoiseModelE where
  attachments : List Attachment
deriving DecidableEq

/-- What a circuit function hands to `AerSimulator(...).run(qc, shots)`:
the circuit, the attached noise model and the shot count. -/
structure SimJob where
  circuit : List Op
  noise : NoiseModelE
  shots : Nat
deriving DecidableEq

/-- `counts.get(key, 0)` on an outcome table (bitstring ↦ count). -/
def countsGet (counts : List (String × Nat)) (k : String) : Nat :=
  match counts.find? (fun e => e.1 == k) with
  | some e => e.2
  | none => 0

/-- `sum(counts.values())`. -/
def countsTotal (counts : List (String × Nat)) : Nat :=
  (counts.map fun e => e.2).sum

namespace Code862

/-! Embedding of `src/(8,6,2)_code/(8,6,2)_DD.py`.

`prep_qubits` declares `data = QuantumRegister(8)`, `anc = QuantumRegister(4)`,
`c = ClassicalRegister(2)`; flattened, data = qubits 0..7, anc = qubits 8..11,
so the circuits act on 12 qubits, and `anc[0] = 8`, `anc[1] = 9`. -/

def nQubits : Nat := 12

/-- The data register, `data[0..7]`. -/
def dataQ : List Nat := List.range 8

/-- `encode_dfs_logical_zero`: CNOT cascade from `data[0]`, Hadamard on all
data qubits, CNOT cascade again, Hadamard on all data qubits again
(the "doubled" construction). -/
def encode_dfs_logical_zero (qc : List Op) : List Op :=
  let qc := (List.range' 1 7).foldl (fun s i => s ++ [Op.cx 0 i]) qc
  let qc := dataQ.foldl (fun s q => s ++ [Op.h q]) qc
  let qc := (List.range' 1 7).foldl (fun s i => s ++ [Op.cx 0 i]) qc
  dataQ.foldl (fun s q => s ++ [Op.h q]) qc

/-- `dynamical_decoupling`: X on every data qubit, a barrier, then Y on every
data qubit. -/
def dynamical_decoupling (qc : List Op) : List Op :=
  let qc := dataQ.foldl (fun s q => s ++ [Op.x q]) qc
  let qc := qc ++ [Op.barrier]
  dataQ.foldl (fun s q => s ++ [Op.y q]) qc

/-- `stabilizer_measurements`: Z-parity (CNOT from every data qubit into
`anc[0]`, measure into `c[0]`, reset), then X-parity (H–CNOT-into-`anc[1]`–H
for every data qubit, measure into `c[1]`, reset). -/
def stabilizer_measurements (qc : List Op) : List Op :=
  let qc := (List.range 8).foldl (fun s i => s ++ [Op.cx i 8]) qc
  let qc := qc ++ [Op.measure 8 0] ++ [Op.reset 8]
  let qc := (List.range 8).foldl (fun s i => s ++ [Op.h i, Op.cx i 9, Op.h i]) qc
  qc ++ [Op.measure 9 1] ++ [Op.reset 9]

/-- `leakage_noise_model(p, p_leak)`: a symmetric depolarizing mixture on `h`,
its tensor square on `cx`, and the biased leakage channel {I: 1−p_leak,
Z: p_leak} on `h`. -/
def leakage_noise_model (p p_leak : ℚ) : NoiseModelE :=
  let pauli := pauli_error [("X", p / 3), ("Y", p / 3), ("Z", p / 3), ("I", 1 - p)]
  let leak := pauli_error [("I", 1 - p_leak), ("Z", p_leak)]
  ⟨[⟨pauli, ["h"]⟩, ⟨tensorE pauli pauli, ["cx"]⟩, ⟨leak, ["h"]⟩]⟩

/-- `leakage_elimination_operation`: Z on every data qubit. -/
def leakage_elimination_operation (qc : List Op) : List Op :=
  dataQ.foldl (fun s q => s ++ [Op.z q]) qc

/-- The operation sequence built by `circuit_mid_circuit`. -/
def circuit_mid_circuit_ops : List Op :=
  let qc := encode_dfs_logical_zero []
  let qc := dynamical_decoupling qc
  let qc := leakage_elimination_operation qc
  let qc := qc ++ [Op.barrier]
  let qc := stabilizer_measurements qc
  let qc := dynamical_decoupling qc
  let qc := leakage_elimination_operation qc
  qc ++ [Op.barrier]

/-- The operation sequence built by `circuit_deferred`: both parity sequences
are interleaved per data qubit (CNOT into `anc[0]`, H, CNOT into `anc[1]`, H)
without intermediate measurement, then both ancillas are measured at the end. -/
def circuit_deferred_ops : List Op :=
  let qc := encode_dfs_logical_zero []
  let qc := dynamical_decoupling qc
  let qc := leakage_elimination_operation qc
  let qc := qc ++ [Op.barrier]
  let qc := (List.range 8).foldl (fun s i => s ++ [Op.cx i 8, Op.h i, Op.cx i 9, Op.h i]) qc
  qc ++ [Op.measure 8 0] ++ [Op.measure 9 1]

/-- The operation sequence built by `circuit_control`: encode, DD, LEO, then a
direct measurement of `data[0]` into `c[0]`. -/
def circuit_control_ops : List Op :=
  let qc := encode_dfs_logical_zero []
  let qc := dynamical_decoupling qc
  let qc := leakage_elimination_operation qc
  qc ++ [Op.measure 0 0]

/-- `circuit_mid_circuit(shots, p, p_leak)` up to the external simulator
boundary: the job it submits. -/
def circuit_mid_circuit (shots : Nat) (p p_leak : ℚ) : SimJob :=
  ⟨circuit_mid_circuit_ops, leakage_noise_model p p_leak, shots⟩

/-- `circuit_deferred(shots, p, p_leak)` up to the external simulator boundary. -/
def circuit_deferred (shots : Nat) (p p_leak : ℚ) : SimJob :=
  ⟨circuit_deferred_ops, leakage_noise_model p p_leak, shots⟩

/-- `circuit_control(shots, p, p_leak)` up to the external simulator boundary. -/
def circuit_control (shots : Nat) (p p_leak : ℚ) : SimJob :=
  ⟨circuit_control_ops, leakage_noise_model p p_leak, shots⟩

/-- The Python default of the `p_leak` parameter of the three circuit
functions (0.01). -/
def p_leak_default : ℚ := 1 / 100

/-- `postselection_rate(counts)`: `valid / total if total > 0 else 0`, with
`total = sum(counts.values())` and `valid = counts.get('00', 0)`. -/
def postselection_rate (counts : List (String × Nat)) : ℚ :=
  if 0 < countsTotal counts then (countsGet counts "00" : ℚ) / (countsTotal counts : ℚ)
  else 0

/-- `run_benchmarks(noise_vals, shots)` invokes, for each noise value `p` in
order, `circuit_mid_circuit(shots, p)`, `circuit_deferred(shots, p)` and
`circuit_control(shots, p)` — the `p_leak` argument is omitted at every call
site, so Python passes its default.  This definition is the list of submitted
jobs; the driver's return value is the per-job postselection rate of the
counts the external simulator produces. -/
def run_benchmarks_jobs (noise_vals : List ℚ) (shots : Nat) :
    List (SimJob × SimJob × SimJob) :=
  noise_vals.map fun p =>
    (circuit_mid_circuit shots p p_leak_default,
     circuit_deferred shots p p_leak_default,
     circuit_control shots p p_leak_default)

end Code862

namespace Sim642

/-! Embedding of `src/simulations/(6,4,2)_sim_dd.py`.

`prep_qubits` declares `data = QuantumRegister(6)`,
`anc = QuantumRegister(4)`, `c = ClassicalRegister(2)`; flattened,
data = qubits 0..5, ancilla = qubits 6..9 (10 qubits), `anc[0] = 6`,
`anc[1] = 7`. -/

def nQubits : Nat := 10

def dataQ : List Nat := List.range 6

/-- `encode_logical_zero`: GHZ preparation — H on `data[0]`, then CNOT from
`data[0]` to each other data qubit. -/
def encode_logical_zero (qc : List Op) : List Op :=
  qc ++ [Op.h 0] ++ [Op.cx 0 1] ++ [Op.cx 0 2] ++ [Op.cx 0 3] ++ [Op.cx 0 4] ++ [Op.cx 0 5]

/-- `s1_meas`: CNOT from every data qubit into the ancilla, then measure. -/
def s1_meas (qc : List Op) (anc cbit : Nat) : List Op :=
  ((List.range 6).foldl (fun s i => s ++ [Op.cx i anc]) qc) ++ [Op.measure anc cbit]

/-- `s2_meas`: H–CNOT-into-ancilla–H for every data qubit, then measure. -/
def s2_meas (qc : List Op) (anc cbit : Nat) : List Op :=
  ((List.range 6).foldl (fun s i => s ++ [Op.h i, Op.cx i anc, Op.h i]) qc)
    ++ [Op.measure anc cbit]

/-- `dynamical_decoupling`: X on every data qubit, a barrier, then Y on every
data qubit. -/
def dynamical_decoupling (qc : List Op) : List Op :=
  let qc := dataQ.foldl (fun s q => s ++ [Op.x q]) qc
  let qc := qc ++ [Op.barrier]
  dataQ.foldl (fun s q => s ++ [Op.y q]) qc

/-- `stab_measurements`: `s1_meas` into `anc[0]`/`c[0]`, reset `anc[0]`,
`s2_meas` into `anc[1]`/`c[1]`, reset `anc[1]`. -/
def stab_measurements (qc : List Op) : List Op :=
  let qc := s1_meas qc 6 0
  let qc := qc ++ [Op.reset 6]
  let qc := s2_meas qc 7 1
  qc ++ [Op.reset 7]

/-- `leakage_noise_model(p)`: single-qubit {X: p/2, Z: p/2, I: 1−p} on `h` and
correlated two-qubit {XX: p/2, ZZ: p/2, II: 1−p} on `cx`. -/
def leakage_noise_model (p : ℚ) : NoiseModelE :=
  let single_leak := pauli_error [("X", p / 2), ("Z", p / 2), ("I", 1 - p)]
  let two_leak := pauli_error [("XX", p / 2), ("ZZ", p / 2), ("II", 1 - p)]
  ⟨[⟨single_leak, ["h"]⟩, ⟨two_leak, ["cx"]⟩]⟩

/-- The operation sequence built by `circuit_control`: encode, DD, barrier,
then per data qubit CNOT into `anc[0]`, H, CNOT into `anc[1]`, H, and finally
measurement of both ancillas. -/
def circuit_control_ops : List Op :=
  let qc := encode_logical_zero []
  let qc := dynamical_decoupling qc
  let qc := qc ++ [Op.barrier]
  let qc := (List.range 6).foldl (fun s i => s ++ [Op.cx i 6, Op.h i, Op.cx i 7, Op.h i]) qc
  qc ++ [Op.measure 6 0] ++ [Op.measure 7 1]

/-- The operation sequence built by `circuit_deferred_measurement`: encode, DD,
barrier, the same interleaved parity sequences, and measurement of both
ancillas at the end. -/
def circuit_deferred_measurement_ops : List Op :=
  let qc := encode_logical_zero []
  let qc := dynamical_decoupling qc
  let qc := qc ++ [Op.barrier]
  let qc := (List.range 6).foldl (fun s i => s ++ [Op.cx i 6, Op.h i, Op.cx i 7, Op.h i]) qc
  qc ++ [Op.measure 6 0] ++ [Op.measure 7 1]

/-- `circuit_control(shots, p_noise)` up to the external simulator boundary. -/
def circuit_control (shots : Nat) (p_noise : ℚ) : SimJob :=
  ⟨circuit_control_ops, leakage_noise_model p_noise, shots⟩

/-- `circuit_deferred_measurement(shots, p_noise)` up to the external
simulator boundary. -/
def circuit_deferred_measurement (shots : Nat) (p_noise : ℚ) : SimJob :=
  ⟨circuit_deferred_measurement_ops, leakage_noise_model p_noise, shots⟩

/-- `postselection_rate(counts)`: `counts.get('00', 0) / total` with no guard —
a zero total raises `ZeroDivisionError`, modelled as `none`. -/
def postselection_rate (counts : List (String × Nat)) : Option ℚ :=
  if countsTotal counts = 0 then none
  else some ((countsGet counts "00" : ℚ) / (countsTotal counts : ℚ))

end Sim642

namespace Hw862

/-! Embedding of `src/(8,6,2)_code/(8,6,2)_hardware.py` (circuit shapes only;
hardware submission is an external collaborator).

`prep_qubits`: `data = QuantumRegister(8)`, `anc = QuantumRegister(2)`,
`c = ClassicalRegister(2)`; data = qubits 0..7, anc = qubits 8..9. -/

def nQubits : Nat := 10

def dataQ : List Nat := List.range 8

/-- `encode_dfs_logical_zero` (same doubled construction as `(8,6,2)_DD.py`). -/
def encode_dfs_logical_zero (qc : List Op) : List Op :=
  let qc := (List.range' 1 7).foldl (fun s i => s ++ [Op.cx 0 i]) qc
  let qc := dataQ.foldl (fun s q => s ++ [Op.h q]) qc
  let qc := (List.range' 1 7).foldl (fun s i => s ++ [Op.cx 0 i]) qc
  dataQ.foldl (fun s q => s ++ [Op.h q]) qc

/-- The operation sequence built by `circuit_control`: encode, then direct
measurement of `data[0]` into `c[0]` and `data[1]` into `c[1]`. -/
def circuit_control_ops : List Op :=
  let qc := encode_dfs_logical_zero []
  qc ++ [Op.measure 0 0] ++ [Op.measure 1 1]

end Hw862

namespace Six42

/-! Embedding of `src/six_four_two_code/six_four_two_v2.py` (circuit shapes
only; hardware submission is an external collaborator).

`prep_qubits`: `data = QuantumRegister(6)`, `anc = QuantumRegister(2)`,
`c = ClassicalRegister(2)`; data = qubits 0..5, anc = qubits 6..7. -/

def nQubits : Nat := 8

/-- `encode_logical_zero`: GHZ preparation — H on `data[0]`, then CNOT from
`data[0]` to each other data qubit. -/
def encode_logical_zero (qc : List Op) : List Op :=
  (List.range' 1 5).foldl (fun s i => s ++ [Op.cx 0 i]) (qc ++ [Op.h 0])

/-- `stabilizer_measurements`: ZZZZZZ check into `anc[0]`/`c[0]` with reset,
then XXXXXX check into `anc[1]`/`c[1]` with reset. -/
def stabilizer_measurements (qc : List Op) : List Op :=
  let qc := (List.range 6).foldl (fun s i => s ++ [Op.cx i 6]) qc
  let qc := qc ++ [Op.measure 6 0] ++ [Op.reset 6]
  let qc := (List.range 6).foldl (fun s i => s ++ [Op.h i, Op.cx i 7, Op.h i]) qc
  qc ++ [Op.measure 7 1] ++ [Op.reset 7]

end Six42

/-- The GHZ-style cascade logical-zero construction (the `encode_logical_zero`
of the 6-qubit modules), parametrised by the number n of data qubits:
Hadamard on qubit 0, then CNOT from qubit 0 to every other data qubit. -/
def ghz_cascade (n : Nat) : List Op :=
  [Op.h 0] ++ ((List.range' 1 (n - 1)).map fun i => Op.cx 0 i)

/-- The "doubled" logical-zero construction (the `encode_dfs_logical_zero` of
the 8-qubit modules), parametrised by the number n of data qubits: CNOT
cascade, Hadamard on all data qubits, CNOT cascade again, Hadamard on all data
qubits again. -/
def doubled_encode (n : Nat) : List Op :=
  ((List.range' 1 (n - 1)).map fun i => Op.cx 0 i)
    ++ ((List.range n).map Op.h)
    ++ ((List.range' 1 (n - 1)).map fun i => Op.cx 0 i)
    ++ ((List.range n).map Op.h)

/-- Measure every one of the n data qubits (qubit q into bit q): the noiseless
measurement statistics of an encoded state. -/
def measAll (n : Nat) : List Op :=
  (List.range n).map fun q => Op.measure q q

/-- The operation sequence the spec requires of the stabilizer-measurement
fragment, in order: CNOT from every data qubit into ancilla `a0`, measure `a0`
into bit `b0`, reset `a0`; then for every data qubit H, CNOT into `a1`, H;
measure `a1` into bit `b1`, reset `a1`. -/
def stabFrag (n a0 a1 b0 b1 : Nat) : List Op :=
  ((List.range n).map fun i => Op.cx i a0)
    ++ [Op.measure a0 b0, Op.reset a0]
    ++ ((List.range n).map fun i => [Op.h i, Op.cx i a1, Op.h i]).flatten
    ++ [Op.measure a1 b1, Op.reset a1]

/-- The dynamical-decoupling fragment on n data qubits: X on every data qubit,
a barrier, then Y on every data qubit. -/
def ddFrag (n : Nat) : List Op :=
  ((List.range n).map Op.x) ++ [Op.barrier] ++ ((List.range n).map Op.y)

/-- k sequential repetitions of an operation list. -/
def opsPow (ops : List Op) : Nat → List Op
  | 0 => []
  | k + 1 => ops ++ opsPow ops k

/-- The logical state of the 8-qubit module: the state its encoder prepares
from |0…0⟩ on the 12-qubit register. -/
def encState862 : QVec :=
  evalOps 12 oFalse (Code862.encode_dfs_logical_zero []) (baseT 12)

/-- The logical state of the 6-qubit simulation module: the state its encoder
prepares from |0…0⟩ on the 10-qubit register. -/
def encState642 : QVec :=
  evalOps 10 oFalse (Sim642.encode_logical_zero []) (baseT 10)



/-- Is the operation a measurement? -/
def isMeasureOp : Op → Bool
  | Op.measure _ _ => true
  | _ => false

/-- The qubits an operation acts on. -/
def opQubits : Op → List Nat
  | Op.h q => [q]
  | Op.x q => [q]
  | Op.y q => [q]
  | Op.z q => [q]
  | Op.cx c t => [c, t]
  | Op.measure q _ => [q]
  | Op.reset q => [q]
  | Op.barrier => []

/-- Does the operation touch any qubit with index ≥ m (with m the size of the
data register: does it touch the ancilla register)? -/
def touchesQubitGE (m : Nat) (op : Op) : Bool :=
  (opQubits op).any fun q => m ≤ q

/-- The single-qubit depolarizing mixture of the 8-qubit module's noise model. -/
def dep862 (p : ℚ) : QuantumErrorE :=
  pauli_error [("X", p / 3), ("Y", p / 3), ("Z", p / 3), ("I", 1 - p)]

/-- The biased leakage channel {I: 1−p_leak, Z: p_leak} of the 8-qubit module. -/
def leak862 (p_leak : ℚ) : QuantumErrorE :=
  pauli_error [("I", 1 - p_leak), ("Z", p_leak)]

/-- The single-qubit leakage channel of the 6-qubit simulation module:
{X: p/2, Z: p/2, I: 1−p}. -/
def leakSingle642 (p : ℚ) : QuantumErrorE :=
  pauli_error [("X", p / 2), ("Z", p / 2), ("I", 1 - p)]

/-- The correlated two-qubit leakage channel of the 6-qubit simulation module:
{XX: p/2, ZZ: p/2, II: 1−p}. -/
def leakTwo642 (p : ℚ) : QuantumErrorE :=
  pauli_error [("XX", p / 2), ("ZZ", p / 2), ("II", 1 - p)]

/-! ## General lemmas -/

theorem evalOps_append (n : Nat) (o : Nat → Bool) (a b : List Op) (v : QVec) :
    evalOps n o (a ++ b) v = evalOps n o b (evalOps n o a v) := by
  simp [evalOps, List.foldl_append]

theorem evalOps_nil (n : Nat) (o : Nat → Bool) (v : QVec) : evalOps n o [] v = v := rfl

/-- If one double application of a fragment fixes a state, so does every even
number of applications. -/
theorem evalOps_opsPow_even (n : Nat) (o : Nat → Bool) (ops : List Op) (v : QVec)
    (base : evalOps n o (ops ++ ops) v = v) :
    ∀ k : Nat, evalOps n o (opsPow ops (2 * k)) v = v := by
  intro k
  induction k with
  | zero => rw [show opsPow ops (2 * 0) = ([] : List Op) from rfl, evalOps_nil]
  | succ k ih =>
    have e1 : opsPow ops (2 * (k + 1)) = (ops ++ ops) ++ opsPow ops (2 * k) := by
      rw [Nat.mul_succ,
        show opsPow ops (2 * k + 2) = ops ++ (ops ++ opsPow ops (2 * k)) from rfl,
        List.append_assoc]
    rw [e1, evalOps_append, base]
    exact ih

/-- A loop that appends a gadget per element emits the concatenated gadgets
after the existing circuit. -/
theorem foldl_emit {α : Type} (g : α → List Op) (l : List α) (qc : List Op) :
    l.foldl (fun s i => s ++ g i) qc = qc ++ (l.map g).flatten := by
  induction l generalizing qc with
  | nil => simp
  | cons a l ih => simp [ih, List.append_assoc]

theorem flatten_map_singleton {α : Type} (f : α → Op) (l : List α) :
    (l.map fun i => [f i]).flatten = l.map f := by
  induction l with
  | nil => rfl
  | cons a l ih => simp [ih]

/-- The looked-up count of any key is at most the sum of all counts. -/
theorem countsGet_le_total (counts : List (String × Nat)) (k : String) :
    countsGet counts k ≤ countsTotal counts := by
  unfold countsGet countsTotal
  cases hf : counts.find? (fun e => e.1 == k) with
  | none => exact Nat.zero_le _
  | some e =>
    have hmem : e ∈ counts := List.mem_of_find?_eq_some hf
    exact List.single_le_sum (fun x _ => Nat.zero_le x) _
      (List.mem_map_of_mem (fun e => e.2) hmem)

/-! ## Claims -/

set_option maxRecDepth 1000000 in
set_option maxHeartbeats 4000000 in
/-- Claim C1, counterexample.  The claim asserts that the GHZ-style cascade
and the doubled construction produce the identical stabilizer state for the
same code, hence identical noiseless measurement statistics.  For the 8-qubit
code this is false: measuring all data qubits after the two constructions
gives the all-zero outcome with different probabilities (1/2 versus 1). -/
theorem claim_C1_counterexample :
    acceptProb 8 (ghz_cascade 8 ++ measAll 8) ≠ acceptProb 8 (doubled_encode 8 ++ measAll 8) := by
  have h1 : normSqT (evalOps 8 oFalse (ghz_cascade 8 ++ measAll 8) (baseT 8)) = 1 := by decide
  have h2 : normSqT (evalOps 8 oFalse (doubled_encode 8 ++ measAll 8) (baseT 8)) = 2 ^ 16 := by
    decide
  have h3 : hcount (ghz_cascade 8 ++ measAll 8) = 1 := by decide
  have h4 : hcount (doubled_encode 8 ++ measAll 8) = 16 := by decide
  rw [acceptProb, acceptProb, h1, h2, h3, h4]
  norm_num

set_option maxRecDepth 1000000 in
set_option maxHeartbeats 4000000 in
/-- Claim C1, amended: the two logical-zero constructions do not agree on the
same code.  On the all-zero input the doubled construction returns the
all-zero state (amplitudes scaled by 2^8 = √2^16 for its 16 Hadamards, i.e.
the normalised state |0…0⟩), while the GHZ cascade produces the GHZ state
(|0…0⟩ + |1…1⟩ up to normalisation); measuring all data qubits yields the
all-zero outcome with probability 1 after the former and 1/2 after the
latter.  The embedded module encoders are instances of the two parametrised
constructions (the 8-qubit modules use the doubled form, the 6-qubit modules
the GHZ cascade). -/
theorem claim_C1_theorem :
    dense 8 (evalOps 8 oFalse (doubled_encode 8) (baseT 8)) = dense 8 (smulT ⟨256, 0⟩ (baseT 8))
  ∧ dense 8 (evalOps 8 oFalse (ghz_cascade 8) (baseT 8)) = dense 8 (addT (baseT 8) (lastT 8))
  ∧ acceptProb 8 (doubled_encode 8 ++ measAll 8) = 1
  ∧ acceptProb 8 (ghz_cascade 8 ++ measAll 8) = 1 / 2
  ∧ Code862.encode_dfs_logical_zero [] = doubled_encode 8
  ∧ Hw862.encode_dfs_logical_zero [] = doubled_encode 8
  ∧ Sim642.encode_logical_zero [] = ghz_cascade 6
  ∧ Six42.encode_logical_zero [] = ghz_cascade 6 := by
  have h2 : normSqT (evalOps 8 oFalse (doubled_encode 8 ++ measAll 8) (baseT 8)) = 2 ^ 16 := by
    decide
  have h4 : hcount (doubled_encode 8 ++ measAll 8) = 16 := by decide
  have h1 : normSqT (evalOps 8 oFalse (ghz_cascade 8 ++ measAll 8) (baseT 8)) = 1 := by decide
  have h3 : hcount (ghz_cascade 8 ++ measAll 8) = 1 := by decide
  refine ⟨by decide, by decide, ?_, ?_, by decide, by decide, by decide, by decide⟩
  · rw [acceptProb, h2, h4]; norm_num
  · rw [acceptProb, h1, h3]; norm_num

set_option maxRecDepth 1000000 in
set_option maxHeartbeats 4000000 in
/-- Claim C2.  The claim asserts that at noise level 0 the mid-circuit and
deferred strategies of the 8-qubit module yield postselection rate exactly
1.0 (every trial gives "00").  Evaluating the code noiselessly at that
failing input: the probability of the outcome "00" is exactly 1/2 for both
strategies, because the encoded state |0…0⟩ is not an eigenstate of the
X-parity check, so bit c[1] is uniformly random.  (The unnormalised all-zero
branch weight is 2^31 against 32 Hadamards, i.e. 2^31/2^32 = 1/2.) -/
theorem claim_C2_theorem :
    acceptProb 12 Code862.circuit_mid_circuit_ops = 1 / 2
  ∧ acceptProb 12 Code862.circuit_deferred_ops = 1 / 2
  ∧ acceptProb 12 Code862.circuit_mid_circuit_ops ≠ 1
  ∧ acceptProb 12 Code862.circuit_deferred_ops ≠ 1 := by
  have h1 : normSqT (evalOps 12 oFalse Code862.circuit_mid_circuit_ops (baseT 12)) = 2 ^ 31 := by
    decide
  have h2 : normSqT (evalOps 12 oFalse Code862.circuit_deferred_ops (baseT 12)) = 2 ^ 31 := by
    decide
  have h3 : hcount Code862.circuit_mid_circuit_ops = 32 := by decide
  have h4 : hcount Code862.circuit_deferred_ops = 32 := by decide
  have e1 : acceptProb 12 Code862.circuit_mid_circuit_ops = 1 / 2 := by
    rw [acceptProb, h1, h3]; norm_num
  have e2 : acceptProb 12 Code862.circuit_deferred_ops = 1 / 2 := by
    rw [acceptProb, h2, h4]; norm_num
  exact ⟨e1, e2, by rw [e1]; norm_num, by rw [e2]; norm_num⟩

/-- Claim C3.  The claim asserts that every control-strategy circuit measures
only one or two data qubits directly and contains no ancilla operations and
no syndrome-extraction sequence.  The two 8-qubit modules conform (their
control circuits measure `data[0]`, respectively `data[0]` and `data[1]`, and
touch no ancilla qubit), but the 6-qubit simulation module's `circuit_control`
violates the claim: it contains the full interleaved parity sequence onto
both ancillas (e.g. a CNOT from `data[0]` into `anc[0] = 6`), fourteen
operations touching the ancilla register, and its only measurements are of
the two ancillas, not of any data qubit. -/
theorem claim_C3_theorem :
    Sim642.circuit_control_ops.filter isMeasureOp = [Op.measure 6 0, Op.measure 7 1]
  ∧ Op.cx 0 6 ∈ Sim642.circuit_control_ops
  ∧ (Sim642.circuit_control_ops.filter (touchesQubitGE 6)).length = 14
  ∧ Code862.circuit_control_ops.filter isMeasureOp = [Op.measure 0 0]
  ∧ Code862.circuit_control_ops.filter (touchesQubitGE 8) = []
  ∧ Hw862.circuit_control_ops.filter isMeasureOp = [Op.measure 0 0, Op.measure 1 1]
  ∧ Hw862.circuit_control_ops.filter (touchesQubitGE 8) = [] := by
  refine ⟨by decide, by decide, by decide, by decide, by decide, by decide, by decide⟩

/-- Claim C4.  The claim asserts that the postselection rate is
`count("00") / total`, defined as 0 when the total is 0 rather than raising
an error.  The 8-qubit module's `postselection_rate` does guard the zero
total, but the 6-qubit simulation module's `postselection_rate` divides
unconditionally and raises `ZeroDivisionError` (modelled as `none`) exactly
when the total is 0 — e.g. on the empty outcome table. -/
theorem claim_C4_theorem :
    Sim642.postselection_rate [] = none
  ∧ Code862.postselection_rate [] = 0
  ∧ (∀ counts : List (String × Nat),
      (Sim642.postselection_rate counts = none ↔ countsTotal counts = 0))
  ∧ (∀ counts : List (String × Nat), countsTotal counts ≠ 0 →
      Sim642.postselection_rate counts
        = some ((countsGet counts "00" : ℚ) / (countsTotal counts : ℚ))) := by
  refine ⟨by decide, by decide, ?_, ?_⟩
  · intro counts
    by_cases h : countsTotal counts = 0 <;> simp [Sim642.postselection_rate, h]
  · intro counts h
    simp [Sim642.postselection_rate, h]

/-- Claim C4, witness. -/
theorem claim_C4_witness :
    Sim642.postselection_rate [] = none
  ∧ (Sim642.postselection_rate [("00", 1), ("11", 3)] = none ↔
      countsTotal [("00", 1), ("11", 3)] = 0)
  ∧ Sim642.postselection_rate [("00", 1), ("11", 3)]
      = some ((countsGet [("00", 1), ("11", 3)] "00" : ℚ)
          / (countsTotal [("00", 1), ("11", 3)] : ℚ)) :=
  ⟨claim_C4_theorem.1, claim_C4_theorem.2.2.1 _, claim_C4_theorem.2.2.2 _ (by decide)⟩

/-- Claim C5, counterexample.  The claim asserts that the leakage channel
{Z: p_leak, I: 1−p_leak} is attached to both the Hadamard kind and the
CNOT kind.  In the 8-qubit module (p = 0.02, p_leak = 0.01, the defaults)
no attachment carries that channel on `cx`: the leak channel is attached to
`h` only. -/
theorem claim_C5_counterexample :
    ¬ ∃ a, a ∈ (Code862.leakage_noise_model (1 / 50) (1 / 100)).attachments
        ∧ a.error = leak862 (1 / 100) ∧ "cx" ∈ a.gates := by
  rintro ⟨a, ha, herr, hcx⟩
  simp [Code862.leakage_noise_model] at ha
  rcases ha with h | h | h <;> subst h
  · simp at hcx
  · have hlen := congrArg (fun e => e.terms.length) herr
    simp [tensorE, leak862, pauli_error, dep862] at hlen
  · simp at hcx

/-- Claim C5, amended: in the 8-qubit module the leakage channel
{Z: p_leak, I: 1−p_leak} is attached only to the Hadamard kind, while the
CNOT kind carries only the tensor square of the depolarizing channel; in the
6-qubit simulation module the single-qubit leakage channel is
{X: p/2, Z: p/2, I: 1−p} attached to the Hadamard kind and the correlated
{XX: p/2, ZZ: p/2, II: 1−p} form is attached to the CNOT kind. -/
theorem claim_C5_theorem (p p_leak : ℚ) :
    (Code862.leakage_noise_model p p_leak).attachments
      = [⟨dep862 p, ["h"]⟩, ⟨tensorE (dep862 p) (dep862 p), ["cx"]⟩,
         ⟨leak862 p_leak, ["h"]⟩]
  ∧ (∀ a ∈ (Code862.leakage_noise_model p p_leak).attachments,
      "cx" ∈ a.gates → a.error = tensorE (dep862 p) (dep862 p))
  ∧ (Sim642.leakage_noise_model p).attachments
      = [⟨leakSingle642 p, ["h"]⟩, ⟨leakTwo642 p, ["cx"]⟩] := by
  refine ⟨rfl, ?_, rfl⟩
  intro a ha hcx
  simp [Code862.leakage_noise_model] at ha
  rcases ha with h1 | h2 | h3
  · subst h1; simp at hcx
  · subst h2; rfl
  · subst h3; simp at hcx

/-- Claim C6.  For each code size used in the repository, the
stabilizer-measurement fragment appends exactly the claimed sequence in the
claimed order: Z-type check (CNOT from every data qubit into ancilla 0,
measure ancilla 0 into bit 0, reset ancilla 0) and only afterwards the X-type
check (per data qubit Hadamard, CNOT into ancilla 1, Hadamard; measure
ancilla 1 into bit 1, reset ancilla 1).  `stabFrag` is that sequence;
ancilla 0/1 are qubits 8/9 in the 8-qubit module and 6/7 in the 6-qubit
modules. -/
theorem claim_C6_theorem (qc : List Op) :
    Code862.stabilizer_measurements qc = qc ++ stabFrag 8 8 9 0 1
  ∧ Sim642.stab_measurements qc = qc ++ stabFrag 6 6 7 0 1
  ∧ Six42.stabilizer_measurements qc = qc ++ stabFrag 6 6 7 0 1 := by
  refine ⟨?_, ?_, ?_⟩ <;>
    simp [Code862.stabilizer_measurements, Sim642.stab_measurements, Sim642.s1_meas,
      Sim642.s2_meas, Six42.stabilizer_measurements, stabFrag, foldl_emit,
      flatten_map_singleton, List.append_assoc]

set_option maxRecDepth 1000000 in
set_option maxHeartbeats 4000000 in
/-- Claim C7.  In both modules that define it — the 8-qubit DD module and the
6-qubit simulation module — the dynamical-decoupling fragment appends an X on
every data qubit, a barrier, then a Y on every data qubit; and, with no
noise, applying the fragment an even number of times leaves the module's
logical state (`encState862`, respectively `encState642`, the state the
module's encoder prepares from |0…0⟩) unchanged. -/
theorem claim_C7_theorem (qc : List Op) (k : Nat) :
    Code862.dynamical_decoupling qc = qc ++ ddFrag 8
  ∧ Sim642.dynamical_decoupling qc = qc ++ ddFrag 6
  ∧ evalOps 12 oFalse (opsPow (ddFrag 8) (2 * k)) encState862 = encState862
  ∧ evalOps 10 oFalse (opsPow (ddFrag 6) (2 * k)) encState642 = encState642 := by
  refine ⟨?_, ?_, ?_, ?_⟩
  · simp [Code862.dynamical_decoupling, Code862.dataQ, ddFrag, foldl_emit,
      flatten_map_singleton, List.append_assoc]
  · simp [Sim642.dynamical_decoupling, Sim642.dataQ, ddFrag, foldl_emit,
      flatten_map_singleton, List.append_assoc]
  · exact evalOps_opsPow_even 12 oFalse (ddFrag 8) encState862 (by decide) k
  · exact evalOps_opsPow_even 10 oFalse (ddFrag 6) encState642 (by decide) k

/-- Claim C8.  For every outcome table (counts are naturals, so nonnegative),
the postselection rate lies in [0, 1]: for the guarded 8-qubit analyzer this
holds unconditionally, and for the 6-qubit simulation analyzer it holds for
every rate it actually returns. -/
theorem claim_C8_theorem (counts : List (String × Nat)) :
    (0 ≤ Code862.postselection_rate counts ∧ Code862.postselection_rate counts ≤ 1)
  ∧ (∀ r : ℚ, Sim642.postselection_rate counts = some r → 0 ≤ r ∧ r ≤ 1) := by
  have hb : (countsGet counts "00" : ℚ) ≤ (countsTotal counts : ℚ) := by
    exact_mod_cast countsGet_le_total counts "00"
  constructor
  · rw [Code862.postselection_rate]
    by_cases h : 0 < countsTotal counts
    · rw [if_pos h]
      have hpos : (0 : ℚ) < (countsTotal counts : ℚ) := by exact_mod_cast h
      exact ⟨div_nonneg (by positivity) hpos.le, (div_le_one hpos).mpr hb⟩
    · rw [if_neg h]; norm_num
  · intro r hr
    rw [Sim642.postselection_rate] at hr
    by_cases h : countsTotal counts = 0
    · rw [if_pos h] at hr; exact absurd hr (by simp)
    · rw [if_neg h] at hr
      have hpos : (0 : ℚ) < (countsTotal counts : ℚ) := by
        exact_mod_cast Nat.pos_of_ne_zero h
      rw [← Option.some.inj hr]
      exact ⟨div_nonneg (by positivity) hpos.le, (div_le_one hpos).mpr hb⟩

/-- Claim C8, witness. -/
theorem claim_C8_witness :
    (0 ≤ Code862.postselection_rate [("00", 3), ("01", 1)]
      ∧ Code862.postselection_rate [("00", 3), ("01", 1)] ≤ 1)
  ∧ (0 ≤ (3 / 4 : ℚ) ∧ (3 / 4 : ℚ) ≤ 1) :=
  ⟨(claim_C8_theorem [("00", 3), ("01", 1)]).1,
   (claim_C8_theorem [("00", 3), ("01", 1)]).2 (3 / 4) (by norm_num [Sim642.postselection_rate, countsTotal, countsGet])⟩

/-- Claim C9.  In the 6-qubit simulation module, `circuit_control` and
`circuit_deferred_measurement` build the identical operation sequence, submit
identical jobs (same circuit, noise model and shots) for every shot count and
noise level, and therefore have identical semantics: every measurement branch
of every input state evolves identically. -/
theorem claim_C9_theorem :
    Sim642.circuit_control_ops = Sim642.circuit_deferred_measurement_ops
  ∧ (∀ shots : Nat, ∀ p : ℚ,
      Sim642.circuit_control shots p = Sim642.circuit_deferred_measurement shots p)
  ∧ (∀ o : Nat → Bool, ∀ v : QVec,
      evalOps 10 o Sim642.circuit_control_ops v
        = evalOps 10 o Sim642.circuit_deferred_measurement_ops v) :=
  ⟨rfl, fun _ _ => rfl, fun _ _ => rfl⟩

/-- Claim C10.  The 8-qubit benchmark driver sweeps only the depolarizing
strength: for every noise value p in the caller-supplied list (p = 0.0
included), `run_benchmarks` submits the three strategy jobs with the leakage
strength left at its Python default 0.01, so the noise model of every
submitted job is `leakage_noise_model p 0.01` and carries the leakage-channel
attachment {I: 99/100, Z: 1/100} on the Hadamard kind. -/
theorem claim_C10_theorem (noise_vals : List ℚ) (shots : Nat) (p : ℚ)
    (hp : p ∈ noise_vals) :
    (Code862.circuit_mid_circuit shots p Code862.p_leak_default,
      Code862.circuit_deferred shots p Code862.p_leak_default,
      Code862.circuit_control shots p Code862.p_leak_default)
        ∈ Code862.run_benchmarks_jobs noise_vals shots
  ∧ Code862.p_leak_default = 1 / 100
  ∧ (Code862.circuit_mid_circuit shots p Code862.p_leak_default).noise
      = Code862.leakage_noise_model p (1 / 100)
  ∧ (Code862.circuit_deferred shots p Code862.p_leak_default).noise
      = Code862.leakage_noise_model p (1 / 100)
  ∧ (Code862.circuit_control shots p Code862.p_leak_default).noise
      = Code862.leakage_noise_model p (1 / 100)
  ∧ Attachment.mk (leak862 (1 / 100)) ["h"]
      ∈ (Code862.leakage_noise_model p (1 / 100)).attachments := by
  refine ⟨List.mem_map_of_mem _ hp, rfl, rfl, rfl, rfl, ?_⟩
  simp [Code862.leakage_noise_model, leak862]

/-- Claim C10, witness (sweep [0.0] at 2000 shots, noise level p = 0). -/
theorem claim_C10_witness :
    (Code862.circuit_mid_circuit 2000 0 Code862.p_leak_default,
      Code862.circuit_deferred 2000 0 Code862.p_leak_default,
      Code862.circuit_control 2000 0 Code862.p_leak_default)
        ∈ Code862.run_benchmarks_jobs [0] 2000
  ∧ Attachment.mk (leak862 (1 / 100)) ["h"]
      ∈ (Code862.leakage_noise_model 0 (1 / 100)).attachments :=
  ⟨(claim_C10_theorem [0] 2000 0 (List.mem_singleton.mpr rfl)).1,
   (claim_C10_theorem [0] 2000 0 (List.mem_singleton.mpr rfl)).2.2.2.2.2⟩

/-- Claim C5, witness. -/
theorem claim_C5_witness :
    (Code862.leakage_noise_model (1 / 50) (1 / 100)).attachments
      = [⟨dep862 (1 / 50), ["h"]⟩,
         ⟨tensorE (dep862 (1 / 50)) (dep862 (1 / 50)), ["cx"]⟩,
         ⟨leak862 (1 / 100), ["h"]⟩]
  ∧ (Attachment.mk (tensorE (dep862 (1 / 50)) (dep862 (1 / 50))) ["cx"]).error
      = tensorE (dep862 (1 / 50)) (dep862 (1 / 50)) :=
  ⟨(claim_C5_theorem (1 / 50) (1 / 100)).1,
   (claim_C5_theorem (1 / 50) (1 / 100)).2.1 _
     (by simp [Code862.leakage_noise_model, dep862]) (by simp)⟩
